import Mathlib

/-!
Verification development for the `polymarket_orderbook` big-trade monitor
(`src/polymarket_orderbook/big_trade_monitor.py`), shallowly embedded in Lean.

Conventions of the embedding:
* Python floats are modelled as exact rationals `ℚ`.
* A Python dict value that `float()` can convert is `Val.num q`; a value on
  which `float()` raises `ValueError`/`TypeError` is `Val.str s`.
* Wall-clock instants are abstracted: ISO timestamp strings are passed in as
  an opaque `String` parameter `nowIso`, and the numeric instant used by
  `get_stats` uptime arithmetic is a `ℚ` parameter.
* `dict.get(k, d)` on an optional field is `Option.getD`.
* Alert callbacks (which may raise) are `BigOrder → Except String Unit`.
-/

namespace Polymarket

/-- A scalar sitting in a trade / orderbook-level dict: either something
`float()` converts (numbers and numeric strings, already as a rational), or a
value on which `float()` raises. -/
inductive Val where
  | num (q : ℚ)
  | str (s : String)
deriving Repr, DecidableEq

/-- Python `float(v)`: succeeds on convertible values, raises otherwise
(modelled as `none`). -/
def Val.toFloat : Val → Option ℚ
  | .num q => some q
  | .str _ => none

/-- Rendering of a Python float inside an f-string, abstracted as an exact
rendering of the rational (numerator/denominator). Only determinism of the
rendering matters to the monitor: the string is used purely as a set key. -/
def fmtRat (q : ℚ) : String :=
  toString q.num ++ "/" ++ toString q.den

/-- f-string rendering of a possibly missing string (Python prints `None`). -/
def fmtOptStr : Option String → String
  | none => "None"
  | some s => s

/-- One price level of an orderbook (`bid` / `ask` dict); fields may be
missing or malformed. Mirrors the dicts consumed by
`_detect_big_order_from_orderbook`. -/
structure Level where
  price : Option Val := none
  size : Option Val := none
deriving Repr, DecidableEq

/-- The part of a trade dict that `_is_big_trade` consults
(`trade.get("size", 0)`, `trade.get("price", 0)`). -/
structure Trade where
  size : Option Val := none
  price : Option Val := none
deriving Repr, DecidableEq

/-- A market-info dict as stored in `tracked_markets`; only the fields read
by the monitor loop and the detection path are modelled. -/
structure MarketInfo where
  token_id : Option String := none
  outcome : Option String := none
  question : Option String := none
  market_slug : Option String := none
deriving Repr, DecidableEq

/-- An orderbook snapshot as returned by the fetch collaborator
(`client.get_orderbook`). -/
structure Orderbook where
  token_id : Option String := none
  bids : List Level := []
  asks : List Level := []
  timestamp : Option String := none
deriving Repr, DecidableEq

/-- The `big_order` dict built in `_detect_big_order_from_orderbook` and
stored (after `_handle_big_trade` enrichment) in `big_trades_history`. -/
structure BigOrder where
  token_id : Option String
  price : ℚ
  size : ℚ
  side : String
  timestamp : String
  outcome : String
  question : String
  market_slug : String
  value : ℚ
  detection_time : String
  type : String
deriving Repr, DecidableEq

/-- The ObservationID of an orderbook observation:
`f"{token_id}_{side}_{price}_{size}"` from
`_detect_big_order_from_orderbook` (`side` is `"BID"` or `"ASK"`). -/
def orderId (tok : Option String) (side : String) (price size : ℚ) : String :=
  fmtOptStr tok ++ "_" ++ side ++ "_" ++ fmtRat price ++ "_" ++ fmtRat size

/-- `_is_big_trade`: converts `size` and `price` with `float()` (default 0),
returns `size >= size_threshold or size*price >= value_threshold`; any
conversion failure is caught and yields `False`. -/
def is_big_trade (trade : Trade) (size_threshold value_threshold : ℚ) : Bool :=
  match (trade.size.getD (Val.num 0)).toFloat,
        (trade.price.getD (Val.num 0)).toFloat with
  | some size, some price =>
      decide (size_threshold ≤ size) || decide (value_threshold ≤ size * price)
  | _, _ => false

/-- `collections.deque(maxlen=m).append x`: at capacity the oldest element is
evicted before inserting. -/
def dequePush (m : ℕ) (xs : List α) (x : α) : List α :=
  if xs.length < m then xs ++ [x] else xs.tail ++ [x]

/-- Capacity of `big_trades_history` (`deque(maxlen=10000)`,
`BigTradeMonitor.__init__`). -/
def BIG_TRADES_CAP : ℕ := 10000

/-- Capacity of `orderbook_history` (`deque(maxlen=1000)`,
`TradeMonitor.__init__`). -/
def ORDERBOOK_HISTORY_CAP : ℕ := 1000

/-- Capacity of `spread_history` (`deque(maxlen=1000)`,
`TradeMonitor.__init__`). -/
def SPREAD_HISTORY_CAP : ℕ := 1000

/-- The `self.stats` dict of `BigTradeMonitor` (the two uptime keys are
written only by `get_stats`). -/
structure MonitorStats where
  total_trades_checked : ℕ
  big_trades_detected : ℕ
  alerts_sent : ℕ
  markets_monitored : ℕ
  start_time : Option ℚ
  uptime_seconds : Option ℚ
  uptime_minutes : Option ℚ
deriving Repr, DecidableEq

/-- The mutable state of one `BigTradeMonitor` instance. -/
structure MonitorState where
  poll_interval : ℚ
  size_threshold : ℚ
  value_threshold : ℚ
  is_running : Bool
  seen_trade_ids : List String
  big_trades_history : List BigOrder
  tracked_markets : List MarketInfo
  alert_callbacks : List (BigOrder → Except String Unit)
  stats : MonitorStats

/-- `BigTradeMonitor.__init__` (defaults: poll 3.0, size 500.0, value
100.0). -/
def initState (poll size_threshold value_threshold : ℚ) : MonitorState where
  poll_interval := poll
  size_threshold := size_threshold
  value_threshold := value_threshold
  is_running := false
  seen_trade_ids := []
  big_trades_history := []
  tracked_markets := []
  alert_callbacks := []
  stats :=
    { total_trades_checked := 0
      big_trades_detected := 0
      alerts_sent := 0
      markets_monitored := 0
      start_time := none
      uptime_seconds := none
      uptime_minutes := none }

/-- Core of `_send_alerts`: walk the callback list in registration order,
invoke each on the record, increment the accumulator only on a successful
(non-raising) invocation; a raising callback is caught (`except Exception`)
and iteration continues. Returns the final `alerts_sent` value together with
the trace of invocation results, one per registered callback, in order. -/
def sendAlertsRun (cbs : List (BigOrder → Except String Unit)) (bt : BigOrder)
    (acc : ℕ) : ℕ × List (Except String Unit) :=
  match cbs with
  | [] => (acc, [])
  | cb :: rest =>
      let res := cb bt
      let acc' := match res with
        | .ok _ => acc + 1
        | .error _ => acc
      let out := sendAlertsRun rest bt acc'
      (out.1, res :: out.2)

/-- `_send_alerts` as a state transformer: only `stats["alerts_sent"]`
changes. -/
def send_alerts (bt : BigOrder) (s : MonitorState) : MonitorState :=
  { s with stats :=
      { s.stats with alerts_sent :=
          (sendAlertsRun s.alert_callbacks bt s.stats.alerts_sent).1 } }

/-- The `big_order` dict built inside `_detect_big_order_from_orderbook` for
one bid/ask level that passed the threshold test. -/
def buildBigOrder (side : String) (tok : Option String) (obTs : Option String)
    (mi : MarketInfo) (nowIso : String) (price size : ℚ) : BigOrder where
  token_id := tok
  price := price
  size := size
  side := side
  timestamp := obTs.getD nowIso
  outcome := mi.outcome.getD "Unknown"
  question := mi.question.getD ""
  market_slug := mi.market_slug.getD ""
  value := size * price
  detection_time := nowIso
  type := "LIMIT_ORDER"

/-- `_handle_big_trade`: increments `big_trades_detected`, recomputes
`value = size * price`, stamps `detection_time`, appends the enriched record
to `big_trades_history` (a `deque(maxlen=10000)`), then triggers
`_send_alerts`. -/
def handle_big_trade (t : BigOrder) (nowIso : String) (s : MonitorState) :
    MonitorState :=
  let s1 := { s with stats :=
      { s.stats with big_trades_detected := s.stats.big_trades_detected + 1 } }
  let bt := { t with value := t.size * t.price, detection_time := nowIso }
  let s2 := { s1 with
      big_trades_history := dequePush BIG_TRADES_CAP s1.big_trades_history bt }
  send_alerts bt s2

/-- One iteration of the bid (resp. ask) loop of
`_detect_big_order_from_orderbook`: convert size and price (a conversion
failure is caught by the surrounding `except` and the level is skipped);
if the threshold test passes, increment `total_trades_checked`, form the
order id, and if it is unseen, mark it and hand the built record to
`_handle_big_trade`. -/
def processLevel (side : String) (tok : Option String) (obTs : Option String)
    (mi : MarketInfo) (nowIso : String) (s : MonitorState) (lvl : Level) :
    MonitorState :=
  match (lvl.size.getD (Val.num 0)).toFloat,
        (lvl.price.getD (Val.num 0)).toFloat with
  | some size, some price =>
      if s.size_threshold ≤ size ∨ s.value_threshold ≤ size * price then
        let s1 := { s with stats :=
            { s.stats with total_trades_checked :=
                s.stats.total_trades_checked + 1 } }
        let oid := orderId tok side price size
        if oid ∈ s1.seen_trade_ids then s1
        else
          let s2 := { s1 with seen_trade_ids := oid :: s1.seen_trade_ids }
          handle_big_trade (buildBigOrder side tok obTs mi nowIso price size)
            nowIso s2
      else s
  | _, _ => s

/-- `_detect_big_order_from_orderbook`: scan all bids, then all asks. -/
def detect_big_order_from_orderbook (ob : Orderbook) (mi : MarketInfo)
    (nowIso : String) (s : MonitorState) : MonitorState :=
  let s1 := ob.bids.foldl (processLevel "BID" ob.token_id ob.timestamp mi nowIso) s
  ob.asks.foldl (processLevel "ASK" ob.token_id ob.timestamp mi nowIso) s1

/-- `set_tracked_markets`: replaces the tracked list and sets
`stats["markets_monitored"]` to its length. -/
def set_tracked_markets (ms : List MarketInfo) (s : MonitorState) :
    MonitorState :=
  { s with
      tracked_markets := ms
      stats := { s.stats with markets_monitored := ms.length } }

/-- `set_thresholds`: each threshold is updated only when the corresponding
argument is not `None`. -/
def set_thresholds (st vt : Option ℚ) (s : MonitorState) : MonitorState :=
  let s1 := match st with
    | some v => { s with size_threshold := v }
    | none => s
  match vt with
  | some v => { s1 with value_threshold := v }
  | none => s1

/-- `add_alert_callback`: appends to the callback list. -/
def add_alert_callback (cb : BigOrder → Except String Unit)
    (s : MonitorState) : MonitorState :=
  { s with alert_callbacks := s.alert_callbacks ++ [cb] }

/-- `clear_history`: empties `big_trades_history` and `seen_trade_ids` and
zeroes the three trade counters. Nothing else is touched — in particular
`markets_monitored`, the thresholds, `tracked_markets` and
`stats["start_time"]` are left as they were. -/
def clear_history (s : MonitorState) : MonitorState :=
  { s with
      big_trades_history := []
      seen_trade_ids := []
      stats := { s.stats with
          total_trades_checked := 0
          big_trades_detected := 0
          alerts_sent := 0 } }

/-- Which of the three `start()` paths ran (visible through the printed
notices). -/
inductive StartOutcome where
  | alreadyRunning
  | noMarkets
  | started
deriving Repr, DecidableEq

/-- `start(auto_discover, ...)`: no-op (plus notice) when already running;
otherwise, with an empty tracked set and discovery enabled, install the
discovered markets (`discovered` stands for the fetch collaborator's
result); if the tracked set is still empty, print a notice and return
normally — no exception is raised; otherwise set `start_time`, flip
`is_running` and launch the worker. -/
def start (auto_discover : Bool) (discovered : List MarketInfo) (now : ℚ)
    (s : MonitorState) : MonitorState × StartOutcome :=
  if s.is_running then (s, .alreadyRunning)
  else
    let s1 := if auto_discover ∧ s.tracked_markets = [] then
        set_tracked_markets discovered s
      else s
    if s1.tracked_markets = [] then (s1, .noMarkets)
    else
      ({ s1 with
          is_running := true
          stats := { s1.stats with start_time := some now } }, .started)

/-- `stop`: no-op when not running, else drop the running flag (the join on
the worker thread has no state effect). -/
def stop (s : MonitorState) : MonitorState :=
  if s.is_running then { s with is_running := false } else s

/-- `get_stats`: when `start_time` is set, writes `uptime_seconds` and
`uptime_minutes` into the internal stats dict, then returns a copy of the
stats dict (`self.stats.copy()`). `now` is the current instant. -/
def get_stats (now : ℚ) (s : MonitorState) : MonitorState × MonitorStats :=
  match s.stats.start_time with
  | some t =>
      let up := now - t
      let s1 := { s with stats :=
          { s.stats with
              uptime_seconds := some up
              uptime_minutes := some (up / 60) } }
      (s1, s1.stats)
  | none => (s, s.stats)

/-- The operations through which a `BigTradeMonitor`'s state is reachable:
the per-market processing step of the poll cycle, plus the public calls. -/
inductive Op where
  | pollOrderbook (ob : Orderbook) (mi : MarketInfo) (nowIso : String)
  | clearHistory
  | startOp (auto_discover : Bool) (discovered : List MarketInfo) (now : ℚ)
  | stopOp
  | setThresholds (st vt : Option ℚ)
  | setTrackedMarkets (ms : List MarketInfo)
  | addAlertCallback (cb : BigOrder → Except String Unit)
  | getStats (now : ℚ)

/-- One state transition. -/
def step (s : MonitorState) : Op → MonitorState
  | .pollOrderbook ob mi nowIso => detect_big_order_from_orderbook ob mi nowIso s
  | .clearHistory => clear_history s
  | .startOp ad disc now => (start ad disc now s).1
  | .stopOp => stop s
  | .setThresholds st vt => set_thresholds st vt s
  | .setTrackedMarkets ms => set_tracked_markets ms s
  | .addAlertCallback cb => add_alert_callback cb s
  | .getStats now => (get_stats now s).1

/-- Run a sequence of operations. -/
def run (s : MonitorState) (ops : List Op) : MonitorState :=
  ops.foldl step s

/-- Modelled from the spec: the per-record processing order claimed in §4.5
("for each returned order/trade, increment `total_checked`, compute its
ObservationID, skip if already in Dedup Store, else mark it seen, evaluate
via Threshold Evaluator, and on big outcome ..."). Used only to compare the
claimed order with the source's `_detect_big_order_from_orderbook`. -/
def specProcessRecord (side : String) (tok : Option String)
    (obTs : Option String) (mi : MarketInfo) (nowIso : String)
    (s : MonitorState) (lvl : Level) : MonitorState :=
  let s1 := { s with stats :=
      { s.stats with total_trades_checked := s.stats.total_trades_checked + 1 } }
  match (lvl.size.getD (Val.num 0)).toFloat,
        (lvl.price.getD (Val.num 0)).toFloat with
  | some size, some price =>
      let oid := orderId tok side price size
      if oid ∈ s1.seen_trade_ids then s1
      else
        let s2 := { s1 with seen_trade_ids := oid :: s1.seen_trade_ids }
        if s2.size_threshold ≤ size ∨ s2.value_threshold ≤ size * price then
          handle_big_trade (buildBigOrder side tok obTs mi nowIso price size)
            nowIso s2
        else s2
  | _, _ => s1

/-- Modelled from the spec: `start()` per the claim in §7 — a configuration
error (still-empty tracked set) is "surfaced to the caller synchronously as
a raised error from start()". Used only to compare the claimed signature
with the source's `start`, which prints and returns normally. -/
def specStart (auto_discover : Bool) (discovered : List MarketInfo) (now : ℚ)
    (s : MonitorState) : Except String (MonitorState × StartOutcome) :=
  if s.is_running then .ok (s, .alreadyRunning)
  else
    let s1 := if auto_discover ∧ s.tracked_markets = [] then
        set_tracked_markets discovered s
      else s
    if s1.tracked_markets = [] then .error "No markets to monitor"
    else
      .ok ({ s1 with
          is_running := true
          stats := { s1.stats with start_time := some now } }, .started)

/-! ### Helper lemmas -/

/-- Success test on a callback invocation result. -/
def exceptOk : Except String Unit → Bool
  | .ok _ => true
  | .error _ => false

lemma sendAlertsRun_trace (cbs : List (BigOrder → Except String Unit))
    (bt : BigOrder) (acc : ℕ) :
    (sendAlertsRun cbs bt acc).2 = cbs.map (fun cb => cb bt) ∧
    (sendAlertsRun cbs bt acc).1 =
      acc + (cbs.map (fun cb => cb bt)).countP exceptOk := by
  induction cbs generalizing acc with
  | nil => simp [sendAlertsRun]
  | cons cb rest ih =>
      rcases hr : cb bt with e | u <;>
        simp [sendAlertsRun, hr, (ih _).1, (ih _).2, List.countP_cons, exceptOk,
          Nat.add_assoc, Nat.add_comm]

lemma processLevel_malformed (side : String) (tok : Option String)
    (obTs : Option String) (mi : MarketInfo) (nowIso : String)
    (s : MonitorState) (lvl : Level)
    (h : (lvl.size.getD (Val.num 0)).toFloat = none ∨
         (lvl.price.getD (Val.num 0)).toFloat = none) :
    processLevel side tok obTs mi nowIso s lvl = s := by
  unfold processLevel
  rcases h with h | h
  · rw [h]
  · rw [h]
    rcases (lvl.size.getD (Val.num 0)).toFloat with _ | q <;> rfl

lemma processLevel_not_big (side : String) (tok : Option String)
    (obTs : Option String) (mi : MarketInfo) (nowIso : String)
    (s : MonitorState) (lvl : Level) (size price : ℚ)
    (hs : (lvl.size.getD (Val.num 0)).toFloat = some size)
    (hp : (lvl.price.getD (Val.num 0)).toFloat = some price)
    (hbig : ¬(s.size_threshold ≤ size ∨ s.value_threshold ≤ size * price)) :
    processLevel side tok obTs mi nowIso s lvl = s := by
  unfold processLevel
  rw [hs, hp]
  simp only [if_neg hbig]

lemma processLevel_big_seen (side : String) (tok : Option String)
    (obTs : Option String) (mi : MarketInfo) (nowIso : String)
    (s : MonitorState) (lvl : Level) (size price : ℚ)
    (hs : (lvl.size.getD (Val.num 0)).toFloat = some size)
    (hp : (lvl.price.getD (Val.num 0)).toFloat = some price)
    (hbig : s.size_threshold ≤ size ∨ s.value_threshold ≤ size * price)
    (hseen : orderId tok side price size ∈ s.seen_trade_ids) :
    processLevel side tok obTs mi nowIso s lvl =
      { s with stats := { s.stats with
          total_trades_checked := s.stats.total_trades_checked + 1 } } := by
  unfold processLevel
  rw [hs, hp]
  simp only [if_pos hbig, if_pos hseen]

lemma processLevel_big_new (side : String) (tok : Option String)
    (obTs : Option String) (mi : MarketInfo) (nowIso : String)
    (s : MonitorState) (lvl : Level) (size price : ℚ)
    (hs : (lvl.size.getD (Val.num 0)).toFloat = some size)
    (hp : (lvl.price.getD (Val.num 0)).toFloat = some price)
    (hbig : s.size_threshold ≤ size ∨ s.value_threshold ≤ size * price)
    (hnew : orderId tok side price size ∉ s.seen_trade_ids) :
    processLevel side tok obTs mi nowIso s lvl =
      { s with
          seen_trade_ids := orderId tok side price size :: s.seen_trade_ids
          big_trades_history := dequePush BIG_TRADES_CAP s.big_trades_history
            (buildBigOrder side tok obTs mi nowIso price size)
          stats := { s.stats with
              total_trades_checked := s.stats.total_trades_checked + 1
              big_trades_detected := s.stats.big_trades_detected + 1
              alerts_sent := (sendAlertsRun s.alert_callbacks
                (buildBigOrder side tok obTs mi nowIso price size)
                s.stats.alerts_sent).1 } } := by
  unfold processLevel
  rw [hs, hp]
  simp only [if_pos hbig, if_neg hnew]
  rfl

/-- Exhaustive case split on one level-processing step: the state is either
untouched, or only `total_trades_checked` is bumped, or (fields parsed,
threshold passed, id fresh) the full detection takes place. -/
lemma processLevel_cases (side : String) (tok : Option String)
    (obTs : Option String) (mi : MarketInfo) (nowIso : String)
    (s : MonitorState) (lvl : Level) :
    processLevel side tok obTs mi nowIso s lvl = s ∨
    processLevel side tok obTs mi nowIso s lvl =
      { s with stats := { s.stats with
          total_trades_checked := s.stats.total_trades_checked + 1 } } ∨
    ∃ size price,
      (lvl.size.getD (Val.num 0)).toFloat = some size ∧
      (lvl.price.getD (Val.num 0)).toFloat = some price ∧
      (s.size_threshold ≤ size ∨ s.value_threshold ≤ size * price) ∧
      orderId tok side price size ∉ s.seen_trade_ids ∧
      processLevel side tok obTs mi nowIso s lvl =
        { s with
            seen_trade_ids := orderId tok side price size :: s.seen_trade_ids
            big_trades_history := dequePush BIG_TRADES_CAP s.big_trades_history
              (buildBigOrder side tok obTs mi nowIso price size)
            stats := { s.stats with
                total_trades_checked := s.stats.total_trades_checked + 1
                big_trades_detected := s.stats.big_trades_detected + 1
                alerts_sent := (sendAlertsRun s.alert_callbacks
                  (buildBigOrder side tok obTs mi nowIso price size)
                  s.stats.alerts_sent).1 } } := by
  rcases hs : (lvl.size.getD (Val.num 0)).toFloat with _ | size
  · exact Or.inl (processLevel_malformed _ _ _ _ _ _ _ (Or.inl hs))
  rcases hp : (lvl.price.getD (Val.num 0)).toFloat with _ | price
  · exact Or.inl (processLevel_malformed _ _ _ _ _ _ _ (Or.inr hp))
  by_cases hbig : s.size_threshold ≤ size ∨ s.value_threshold ≤ size * price
  · by_cases hseen : orderId tok side price size ∈ s.seen_trade_ids
    · exact Or.inr (Or.inl
        (processLevel_big_seen _ _ _ _ _ _ _ _ _ hs hp hbig hseen))
    · exact Or.inr (Or.inr ⟨size, price, rfl, rfl, hbig, hseen,
        processLevel_big_new _ _ _ _ _ _ _ _ _ hs hp hbig hseen⟩)
  · exact Or.inl (processLevel_not_big _ _ _ _ _ _ _ _ _ hs hp hbig)

lemma mem_dequePush {α : Type} {m : ℕ} {xs : List α} {x y : α}
    (h : y ∈ dequePush m xs x) : y ∈ xs ∨ y = x := by
  unfold dequePush at h
  split at h <;> rcases List.mem_append.mp h with h1 | h1
  · exact Or.inl h1
  · exact Or.inr (List.mem_singleton.mp h1)
  · exact Or.inl (List.mem_of_mem_tail h1)
  · exact Or.inr (List.mem_singleton.mp h1)

lemma dequePush_length {α : Type} {m : ℕ} (hm : 0 < m) (xs : List α) (x : α)
    (h : xs.length ≤ m) : (dequePush m xs x).length ≤ m := by
  unfold dequePush
  split
  next hlt => simpa using hlt
  next hlt =>
    rcases xs with _ | ⟨a, t⟩
    · simpa using hm
    · simpa using h

/-- Folding pushes into a deque of capacity `m` keeps the last `m` inserted
elements, in insertion order. -/
lemma dequeFold_eq {α : Type} {m : ℕ} (hm : 0 < m) (t : List α) :
    ∀ s : List α, s.length ≤ m →
      List.foldl (dequePush m) s t = (s ++ t).drop (s.length + t.length - m) := by
  induction t with
  | nil =>
      intro s hs
      simp [Nat.sub_eq_zero_of_le hs]
  | cons x xs ih =>
      intro s hs
      rcases lt_or_eq_of_le hs with hlt | heq
      · rw [List.foldl_cons, show dequePush m s x = s ++ [x] from if_pos hlt,
          ih (s ++ [x]) (by simpa using hlt)]
        simp [Nat.add_assoc, Nat.add_comm, Nat.add_left_comm]
      · have hs0 : s ≠ [] := by
          intro h
          rw [h] at heq
          exact absurd heq.symm (Nat.ne_of_gt hm)
        have hpush : dequePush m s x = s.tail ++ [x] := by
          unfold dequePush
          rw [if_neg (by omega)]
        have htl : (s.tail ++ [x]).length ≤ m := by
          rcases s with _ | ⟨a, r⟩
          · exact absurd rfl hs0
          · simp at heq ⊢
            omega
        rw [List.foldl_cons, hpush, ih _ htl]
        have h1 : s.tail ++ [x] ++ xs = (s ++ x :: xs).drop 1 := by
          rcases s with _ | ⟨a, r⟩
          · exact absurd rfl hs0
          · simp
        rw [h1, List.drop_drop]
        congr 1
        rcases s with _ | ⟨a, r⟩
        · exact absurd rfl hs0
        · simp at heq ⊢
          omega

lemma listSubset_of_eq {α : Type} {l1 l2 : List α} (h : l1 = l2) :
    l1 ⊆ l2 := fun _ ha => h ▸ ha

lemma run_cons (s : MonitorState) (op : Op) (rest : List Op) :
    run s (op :: rest) = run (step s op) rest := rfl

lemma start_frame (ad : Bool) (disc : List MarketInfo) (now : ℚ)
    (s : MonitorState) :
    ((start ad disc now s).1).big_trades_history = s.big_trades_history ∧
    ((start ad disc now s).1).seen_trade_ids = s.seen_trade_ids ∧
    ((start ad disc now s).1).size_threshold = s.size_threshold ∧
    ((start ad disc now s).1).value_threshold = s.value_threshold := by
  unfold start
  split_ifs <;> simp [set_tracked_markets] <;> split_ifs <;> simp

lemma stop_frame (s : MonitorState) :
    (stop s).big_trades_history = s.big_trades_history ∧
    (stop s).seen_trade_ids = s.seen_trade_ids ∧
    (stop s).size_threshold = s.size_threshold ∧
    (stop s).value_threshold = s.value_threshold := by
  unfold stop
  split_ifs <;> simp

lemma get_stats_frame (now : ℚ) (s : MonitorState) :
    ((get_stats now s).1).big_trades_history = s.big_trades_history ∧
    ((get_stats now s).1).seen_trade_ids = s.seen_trade_ids ∧
    ((get_stats now s).1).size_threshold = s.size_threshold ∧
    ((get_stats now s).1).value_threshold = s.value_threshold := by
  unfold get_stats
  rcases s.stats.start_time with _ | t <;> simp

lemma set_thresholds_frame (a b : Option ℚ) (s : MonitorState) :
    (set_thresholds a b s).big_trades_history = s.big_trades_history ∧
    (set_thresholds a b s).seen_trade_ids = s.seen_trade_ids := by
  unfold set_thresholds
  rcases a with _ | v <;> rcases b with _ | w <;> simp

lemma processLevel_thresholds (side : String) (tok : Option String)
    (obTs : Option String) (mi : MarketInfo) (nowIso : String)
    (s : MonitorState) (lvl : Level) :
    (processLevel side tok obTs mi nowIso s lvl).size_threshold =
      s.size_threshold ∧
    (processLevel side tok obTs mi nowIso s lvl).value_threshold =
      s.value_threshold := by
  rcases processLevel_cases side tok obTs mi nowIso s lvl with
    hc | hc | ⟨size, price, _, _, _, _, hc⟩ <;> rw [hc] <;> exact ⟨rfl, rfl⟩

lemma processLevel_seen_subset (side : String) (tok : Option String)
    (obTs : Option String) (mi : MarketInfo) (nowIso : String)
    (s : MonitorState) (lvl : Level) :
    s.seen_trade_ids ⊆ (processLevel side tok obTs mi nowIso s lvl).seen_trade_ids := by
  rcases processLevel_cases side tok obTs mi nowIso s lvl with
    hc | hc | ⟨size, price, _, _, _, _, hc⟩ <;> rw [hc]
  · exact List.Subset.refl _
  · exact List.Subset.refl _
  · exact List.subset_cons_self _ _

lemma foldl_processLevel_thresholds (side : String) (tok : Option String)
    (obTs : Option String) (mi : MarketInfo) (nowIso : String)
    (lvls : List Level) : ∀ s : MonitorState,
    ((lvls.foldl (processLevel side tok obTs mi nowIso) s).size_threshold =
        s.size_threshold ∧
      (lvls.foldl (processLevel side tok obTs mi nowIso) s).value_threshold =
        s.value_threshold) := by
  induction lvls with
  | nil => exact fun s => ⟨rfl, rfl⟩
  | cons l ls ih =>
      intro s
      rw [List.foldl_cons]
      refine ⟨?_, ?_⟩
      · rw [(ih _).1, (processLevel_thresholds side tok obTs mi nowIso s l).1]
      · rw [(ih _).2, (processLevel_thresholds side tok obTs mi nowIso s l).2]

lemma foldl_processLevel_seen_subset (side : String) (tok : Option String)
    (obTs : Option String) (mi : MarketInfo) (nowIso : String)
    (lvls : List Level) : ∀ s : MonitorState,
    s.seen_trade_ids ⊆
      (lvls.foldl (processLevel side tok obTs mi nowIso) s).seen_trade_ids := by
  induction lvls with
  | nil => exact fun s => List.Subset.refl _
  | cons l ls ih =>
      intro s
      rw [List.foldl_cons]
      exact List.Subset.trans
        (processLevel_seen_subset side tok obTs mi nowIso s l) (ih _)

lemma detect_thresholds (ob : Orderbook) (mi : MarketInfo) (nowIso : String)
    (s : MonitorState) :
    (detect_big_order_from_orderbook ob mi nowIso s).size_threshold =
      s.size_threshold ∧
    (detect_big_order_from_orderbook ob mi nowIso s).value_threshold =
      s.value_threshold := by
  unfold detect_big_order_from_orderbook
  refine ⟨?_, ?_⟩
  · rw [(foldl_processLevel_thresholds _ _ _ _ _ ob.asks _).1,
      (foldl_processLevel_thresholds _ _ _ _ _ ob.bids _).1]
  · rw [(foldl_processLevel_thresholds _ _ _ _ _ ob.asks _).2,
      (foldl_processLevel_thresholds _ _ _ _ _ ob.bids _).2]

lemma detect_seen_subset (ob : Orderbook) (mi : MarketInfo) (nowIso : String)
    (s : MonitorState) :
    s.seen_trade_ids ⊆
      (detect_big_order_from_orderbook ob mi nowIso s).seen_trade_ids := by
  unfold detect_big_order_from_orderbook
  exact List.Subset.trans
    (foldl_processLevel_seen_subset _ _ _ _ _ ob.bids _)
    (foldl_processLevel_seen_subset _ _ _ _ _ ob.asks _)

/-- The Dedup Store only grows except through `clear_history`. -/
lemma step_seen_subset (s : MonitorState) (op : Op)
    (h : op ≠ Op.clearHistory) :
    s.seen_trade_ids ⊆ (step s op).seen_trade_ids := by
  cases op with
  | pollOrderbook ob mi n => exact detect_seen_subset ob mi n s
  | clearHistory => exact absurd rfl h
  | startOp ad disc now =>
      exact listSubset_of_eq ((start_frame ad disc now s).2.1).symm
  | stopOp => exact listSubset_of_eq ((stop_frame s).2.1).symm
  | setThresholds a b =>
      exact listSubset_of_eq ((set_thresholds_frame a b s).2).symm
  | setTrackedMarkets ms => exact List.Subset.refl _
  | addAlertCallback cb => exact List.Subset.refl _
  | getStats now =>
      exact listSubset_of_eq ((get_stats_frame now s).2.1).symm

/-- Thresholds change only through `set_thresholds`. -/
lemma step_thresholds (s : MonitorState) (op : Op)
    (h : ∀ a b, op ≠ Op.setThresholds a b) :
    (step s op).size_threshold = s.size_threshold ∧
    (step s op).value_threshold = s.value_threshold := by
  cases op with
  | pollOrderbook ob mi n => exact detect_thresholds ob mi n s
  | clearHistory => exact ⟨rfl, rfl⟩
  | startOp ad disc now =>
      exact ⟨(start_frame ad disc now s).2.2.1, (start_frame ad disc now s).2.2.2⟩
  | stopOp => exact ⟨(stop_frame s).2.2.1, (stop_frame s).2.2.2⟩
  | setThresholds a b => exact absurd rfl (h a b)
  | setTrackedMarkets ms => exact ⟨rfl, rfl⟩
  | addAlertCallback cb => exact ⟨rfl, rfl⟩
  | getStats now =>
      exact ⟨(get_stats_frame now s).2.2.1, (get_stats_frame now s).2.2.2⟩

lemma run_seen_subset (ops : List Op) (h : Op.clearHistory ∉ ops) :
    ∀ s : MonitorState, s.seen_trade_ids ⊆ (run s ops).seen_trade_ids := by
  induction ops with
  | nil => exact fun s => List.Subset.refl _
  | cons op rest ih =>
      intro s
      rw [run_cons]
      exact List.Subset.trans
        (step_seen_subset s op (fun he => h (he ▸ List.mem_cons_self _ _)))
        (ih (fun hr => h (List.mem_cons_of_mem _ hr)) _)

lemma run_thresholds (ops : List Op)
    (h : ∀ a b, Op.setThresholds a b ∉ ops) :
    ∀ s : MonitorState,
      (run s ops).size_threshold = s.size_threshold ∧
      (run s ops).value_threshold = s.value_threshold := by
  induction ops with
  | nil => exact fun s => ⟨rfl, rfl⟩
  | cons op rest ih =>
      intro s
      rw [run_cons]
      have hop : ∀ a b, op ≠ Op.setThresholds a b :=
        fun a b he => h a b (he ▸ List.mem_cons_self _ _)
      have hrest : ∀ a b, Op.setThresholds a b ∉ rest :=
        fun a b hr => h a b (List.mem_cons_of_mem _ hr)
      refine ⟨?_, ?_⟩
      · rw [(ih hrest (step s op)).1, (step_thresholds s op hop).1]
      · rw [(ih hrest (step s op)).2, (step_thresholds s op hop).2]

/-- Claim C5's invariant: every record retained in the big-trade History
Ring has its ObservationID in the Dedup Store. -/
def obsInv (s : MonitorState) : Prop :=
  ∀ bt ∈ s.big_trades_history,
    orderId bt.token_id bt.side bt.price bt.size ∈ s.seen_trade_ids

lemma obsInv_of_eq (s s' : MonitorState)
    (hh : s'.big_trades_history = s.big_trades_history)
    (hs : s.seen_trade_ids ⊆ s'.seen_trade_ids) (h : obsInv s) : obsInv s' :=
  fun bt hbt => hs (h bt (hh ▸ hbt))

lemma obsInv_processLevel (side : String) (tok : Option String)
    (obTs : Option String) (mi : MarketInfo) (nowIso : String)
    (s : MonitorState) (lvl : Level) (h : obsInv s) :
    obsInv (processLevel side tok obTs mi nowIso s lvl) := by
  rcases processLevel_cases side tok obTs mi nowIso s lvl with
    hc | hc | ⟨size, price, _, _, _, _, hc⟩ <;> rw [hc]
  · exact h
  · exact h
  · intro bt hbt
    rcases mem_dequePush hbt with hmem | rfl
    · exact List.mem_cons_of_mem _ (h bt hmem)
    · exact List.mem_cons_self _ _

lemma obsInv_foldl (side : String) (tok : Option String)
    (obTs : Option String) (mi : MarketInfo) (nowIso : String)
    (lvls : List Level) : ∀ s : MonitorState, obsInv s →
    obsInv (lvls.foldl (processLevel side tok obTs mi nowIso) s) := by
  induction lvls with
  | nil => exact fun s h => h
  | cons l ls ih =>
      intro s h
      rw [List.foldl_cons]
      exact ih _ (obsInv_processLevel side tok obTs mi nowIso s l h)

lemma obsInv_step (s : MonitorState) (op : Op) (h : obsInv s) :
    obsInv (step s op) := by
  cases op with
  | pollOrderbook ob mi n =>
      exact obsInv_foldl _ _ _ _ _ ob.asks _
        (obsInv_foldl _ _ _ _ _ ob.bids _ h)
  | clearHistory =>
      intro bt hbt
      simp [step, clear_history] at hbt
  | startOp ad disc now =>
      exact obsInv_of_eq s _ (start_frame ad disc now s).1
        (listSubset_of_eq ((start_frame ad disc now s).2.1).symm) h
  | stopOp =>
      exact obsInv_of_eq s _ (stop_frame s).1
        (listSubset_of_eq ((stop_frame s).2.1).symm) h
  | setThresholds a b =>
      exact obsInv_of_eq s _ (set_thresholds_frame a b s).1
        (listSubset_of_eq ((set_thresholds_frame a b s).2).symm) h
  | setTrackedMarkets ms => exact fun bt hbt => h bt hbt
  | addAlertCallback cb => exact fun bt hbt => h bt hbt
  | getStats now =>
      exact obsInv_of_eq s _ (get_stats_frame now s).1
        (listSubset_of_eq ((get_stats_frame now s).2.1).symm) h

lemma obsInv_run (ops : List Op) : ∀ s : MonitorState, obsInv s →
    obsInv (run s ops) := by
  induction ops with
  | nil => exact fun s h => h
  | cons op rest ih =>
      intro s h
      rw [run_cons]
      exact ih _ (obsInv_step s op h)

/-- Processing a big observation always leaves its id marked. -/
lemma processLevel_marks (side : String) (tok : Option String)
    (obTs : Option String) (mi : MarketInfo) (nowIso : String)
    (s : MonitorState) (lvl : Level) (size price : ℚ)
    (hs : (lvl.size.getD (Val.num 0)).toFloat = some size)
    (hp : (lvl.price.getD (Val.num 0)).toFloat = some price)
    (hbig : s.size_threshold ≤ size ∨ s.value_threshold ≤ size * price) :
    orderId tok side price size ∈
      (processLevel side tok obTs mi nowIso s lvl).seen_trade_ids := by
  by_cases hseen : orderId tok side price size ∈ s.seen_trade_ids
  · rw [processLevel_big_seen side tok obTs mi nowIso s lvl size price hs hp
      hbig hseen]
    exact hseen
  · rw [processLevel_big_new side tok obTs mi nowIso s lvl size price hs hp
      hbig hseen]
    exact List.mem_cons_self _ _

/-- Processing an observation whose id is already marked produces no new
record, no detection, and no alert. -/
lemma processLevel_suppressed (side : String) (tok : Option String)
    (obTs : Option String) (mi : MarketInfo) (nowIso : String)
    (s : MonitorState) (lvl : Level) (size price : ℚ)
    (hs : (lvl.size.getD (Val.num 0)).toFloat = some size)
    (hp : (lvl.price.getD (Val.num 0)).toFloat = some price)
    (hseen : orderId tok side price size ∈ s.seen_trade_ids) :
    (processLevel side tok obTs mi nowIso s lvl).big_trades_history =
      s.big_trades_history ∧
    (processLevel side tok obTs mi nowIso s lvl).stats.big_trades_detected =
      s.stats.big_trades_detected ∧
    (processLevel side tok obTs mi nowIso s lvl).stats.alerts_sent =
      s.stats.alerts_sent := by
  by_cases hbig : s.size_threshold ≤ size ∨ s.value_threshold ≤ size * price
  · rw [processLevel_big_seen side tok obTs mi nowIso s lvl size price hs hp
      hbig hseen]
    exact ⟨rfl, rfl, rfl⟩
  · rw [processLevel_not_big side tok obTs mi nowIso s lvl size price hs hp hbig]
    exact ⟨rfl, rfl, rfl⟩

/-- `_is_big_trade` on a trade whose fields convert: the threshold
disjunction, in `Prop` form. -/
lemma is_big_trade_parsed (trade : Trade) (st vt size price : ℚ)
    (hs : (trade.size.getD (Val.num 0)).toFloat = some size)
    (hp : (trade.price.getD (Val.num 0)).toFloat = some price) :
    is_big_trade trade st vt = true ↔ st ≤ size ∨ vt ≤ size * price := by
  unfold is_big_trade
  rw [hs, hp]
  simp

/-- `specProcessRecord` unconditionally counts every record first. -/
lemma specProcessRecord_total (side : String) (tok : Option String)
    (obTs : Option String) (mi : MarketInfo) (nowIso : String)
    (s : MonitorState) (lvl : Level) :
    (specProcessRecord side tok obTs mi nowIso s lvl).stats.total_trades_checked
      = s.stats.total_trades_checked + 1 := by
  unfold specProcessRecord
  rcases hs : (lvl.size.getD (Val.num 0)).toFloat with _ | size
  · rfl
  rcases hp : (lvl.price.getD (Val.num 0)).toFloat with _ | price
  · rfl
  dsimp only
  split_ifs <;> rfl

/-! ### Concrete sample inputs used by witnesses and counterexamples -/

/-- A market dict with no metadata fields. -/
def miEmpty : MarketInfo := {}

/-- A small resting order: 50 shares at $0.10 (value $5). -/
def lvlSmall : Level := { price := some (Val.num (1/10)), size := some (Val.num 50) }

/-- A big resting order: 600 shares at $0.50 (value $300). -/
def lvlBig : Level := { price := some (Val.num (1/2)), size := some (Val.num 600) }

/-- An orderbook holding only the small bid. -/
def obSmall : Orderbook :=
  { token_id := some "T", bids := [lvlSmall], asks := [], timestamp := some "ts" }

/-- An orderbook holding only the big bid. -/
def obBig : Orderbook :=
  { token_id := some "T", bids := [lvlBig], asks := [], timestamp := some "ts" }

/-- A freshly constructed monitor with the default thresholds. -/
def sampleInit : MonitorState := initState 3 500 100

/-- The record the big bid of `obBig` produces. -/
def sampleBigRecord : BigOrder :=
  buildBigOrder "BID" (some "T") (some "ts") miEmpty "now" (1/2) 600

/-! ### Claim theorems -/

/-- Claim C1, counterexample. The claim says every record returned by the
fetch first increments `total_trades_checked` before dedup and threshold
evaluation. On an orderbook holding one small (non-big) bid, the source's
poll-cycle processing (`_detect_big_order_from_orderbook`) leaves the
counter at 0, whereas processing that record in the order the claim states
(`specProcessRecord`, modelled from the spec) leaves it at 1. -/
theorem poll_cycle_claimed_order_counterexample :
    (detect_big_order_from_orderbook obSmall miEmpty "now"
        sampleInit).stats.total_trades_checked = 0 ∧
    (specProcessRecord "BID" (some "T") (some "ts") miEmpty "now" sampleInit
        lvlSmall).stats.total_trades_checked = 1 := by
  constructor
  · have e : detect_big_order_from_orderbook obSmall miEmpty "now" sampleInit =
        processLevel "BID" (some "T") (some "ts") miEmpty "now" sampleInit
          lvlSmall := rfl
    rw [e, processLevel_not_big "BID" (some "T") (some "ts") miEmpty "now"
      sampleInit lvlSmall 50 (1/10) rfl rfl
      (by show ¬((500 : ℚ) ≤ 50 ∨ (100 : ℚ) ≤ 50 * (1/10)); norm_num)]
    rfl
  · rw [specProcessRecord_total]
    rfl

/-- Claim C1 (amended): in the poll cycle, each bid/ask record with
convertible price and size is first put through the threshold test; only on
a big outcome is `total_trades_checked` incremented and the ObservationID
computed; a seen ID stops processing there (only the counter changed);
a fresh ID is marked and then `big_trades_detected` is incremented, the
BigTradeRecord built and pushed, and alerts dispatched — in that order.
Non-big records change nothing (in particular they are not counted), and
records whose fields fail conversion are skipped entirely. -/
theorem poll_cycle_record_processing_order (side : String)
    (tok : Option String) (obTs : Option String) (mi : MarketInfo)
    (nowIso : String) (s : MonitorState) (lvl : Level) :
    ((lvl.size.getD (Val.num 0)).toFloat = none ∨
        (lvl.price.getD (Val.num 0)).toFloat = none →
      processLevel side tok obTs mi nowIso s lvl = s) ∧
    (∀ size price, (lvl.size.getD (Val.num 0)).toFloat = some size →
      (lvl.price.getD (Val.num 0)).toFloat = some price →
      (¬(s.size_threshold ≤ size ∨ s.value_threshold ≤ size * price) →
        processLevel side tok obTs mi nowIso s lvl = s) ∧
      ((s.size_threshold ≤ size ∨ s.value_threshold ≤ size * price) →
        (orderId tok side price size ∈ s.seen_trade_ids →
          processLevel side tok obTs mi nowIso s lvl =
            { s with stats := { s.stats with
                total_trades_checked := s.stats.total_trades_checked + 1 } }) ∧
        (orderId tok side price size ∉ s.seen_trade_ids →
          processLevel side tok obTs mi nowIso s lvl =
            { s with
                seen_trade_ids :=
                  orderId tok side price size :: s.seen_trade_ids
                big_trades_history := dequePush BIG_TRADES_CAP
                  s.big_trades_history
                  (buildBigOrder side tok obTs mi nowIso price size)
                stats := { s.stats with
                    total_trades_checked := s.stats.total_trades_checked + 1
                    big_trades_detected := s.stats.big_trades_detected + 1
                    alerts_sent := (sendAlertsRun s.alert_callbacks
                      (buildBigOrder side tok obTs mi nowIso price size)
                      s.stats.alerts_sent).1 } }))) :=
  ⟨processLevel_malformed side tok obTs mi nowIso s lvl,
   fun size price hs hp =>
    ⟨fun hbig => processLevel_not_big side tok obTs mi nowIso s lvl size price
        hs hp hbig,
     fun hbig =>
      ⟨fun hseen => processLevel_big_seen side tok obTs mi nowIso s lvl size
          price hs hp hbig hseen,
       fun hnew => processLevel_big_new side tok obTs mi nowIso s lvl size
          price hs hp hbig hnew⟩⟩⟩

/-- Claim C1, witness: the non-big arm at the small bid (no counting) and
the big-fresh arm at the big bid, at concrete inputs. -/
theorem poll_cycle_record_processing_order_witness :
    processLevel "BID" (some "T") (some "ts") miEmpty "now" sampleInit
        lvlSmall = sampleInit ∧
    processLevel "BID" (some "T") (some "ts") miEmpty "now" sampleInit
        lvlBig =
      { sampleInit with
          seen_trade_ids := [orderId (some "T") "BID" (1/2) 600]
          big_trades_history := [sampleBigRecord]
          stats := { sampleInit.stats with
              total_trades_checked := 1
              big_trades_detected := 1
              alerts_sent := 0 } } :=
  ⟨((poll_cycle_record_processing_order "BID" (some "T") (some "ts") miEmpty
      "now" sampleInit lvlSmall).2 50 (1/10) rfl rfl).1
      (by show ¬((500 : ℚ) ≤ 50 ∨ (100 : ℚ) ≤ 50 * (1/10)); norm_num),
   (((poll_cycle_record_processing_order "BID" (some "T") (some "ts") miEmpty
      "now" sampleInit lvlBig).2 600 (1/2) rfl rfl).2
      (Or.inl (by show (500 : ℚ) ≤ 600; norm_num))).2
      (by show orderId (some "T") "BID" (1/2) 600 ∉ ([] : List String)
          exact List.not_mem_nil _)⟩

/-- Claim C2, counterexample. The claim says that across the Dedup Store's
lifetime only the first of two identical `(token_id, side, price, size)`
observations produces a BigTradeRecord. With a `set_thresholds` call in
between, the source produces the record from the *second* identical
observation: the first poll of the small bid yields no record, and after
lowering the size threshold to 10 the identical observation yields one. -/
theorem observation_dedup_counterexample :
    (run sampleInit
        [Op.pollOrderbook obSmall miEmpty "n1"]).big_trades_history.length
      = 0 ∧
    (run sampleInit
        [Op.pollOrderbook obSmall miEmpty "n1",
         Op.setThresholds (some 10) none,
         Op.pollOrderbook obSmall miEmpty "n2"]).big_trades_history.length
      = 1 := by
  have hnb : ¬(sampleInit.size_threshold ≤ 50 ∨
      sampleInit.value_threshold ≤ 50 * (1/10 : ℚ)) := by
    show ¬((500 : ℚ) ≤ 50 ∨ (100 : ℚ) ≤ 50 * (1/10))
    norm_num
  have h1 : processLevel "BID" (some "T") (some "ts") miEmpty "n1" sampleInit
      lvlSmall = sampleInit :=
    processLevel_not_big "BID" (some "T") (some "ts") miEmpty "n1" sampleInit
      lvlSmall 50 (1/10) rfl rfl hnb
  constructor
  · have e : run sampleInit [Op.pollOrderbook obSmall miEmpty "n1"] =
        processLevel "BID" (some "T") (some "ts") miEmpty "n1" sampleInit
          lvlSmall := rfl
    rw [e, h1]
    rfl
  · have e : run sampleInit
        [Op.pollOrderbook obSmall miEmpty "n1",
         Op.setThresholds (some 10) none,
         Op.pollOrderbook obSmall miEmpty "n2"] =
        processLevel "BID" (some "T") (some "ts") miEmpty "n2"
          (set_thresholds (some 10) none
            (processLevel "BID" (some "T") (some "ts") miEmpty "n1" sampleInit
              lvlSmall))
          lvlSmall := rfl
    rw [e, h1]
    have e2 : set_thresholds (some 10) none sampleInit =
        { sampleInit with size_threshold := 10 } := rfl
    rw [e2, processLevel_big_new "BID" (some "T") (some "ts") miEmpty "n2"
      { sampleInit with size_threshold := 10 } lvlSmall 50 (1/10) rfl rfl
      (Or.inl (by show (10 : ℚ) ≤ 50; norm_num))
      (by show orderId (some "T") "BID" (1/10) 50 ∉ ([] : List String)
          exact List.not_mem_nil _)]
    rfl

/-- Claim C2 (amended): the ObservationID is a deterministic function of
exactly `(token_id, side, price, size)`; and provided neither
`clear_history` nor `set_thresholds` intervenes, an observation identical in
those four fields to an earlier-processed one never produces a new
BigTradeRecord, detection, or alert, whatever other operations run in
between — while `clear_history` empties the Dedup Store (and the ring),
re-arming dedup. -/
theorem observation_dedup_suppression (side : String) (tok : Option String)
    (obTs obTs' : Option String) (mi mi' : MarketInfo) (now now' : String)
    (s : MonitorState) (ops : List Op) (lvl lvl' : Level) (size price : ℚ)
    (hs : (lvl.size.getD (Val.num 0)).toFloat = some size)
    (hp : (lvl.price.getD (Val.num 0)).toFloat = some price)
    (hs' : (lvl'.size.getD (Val.num 0)).toFloat = some size)
    (hp' : (lvl'.price.getD (Val.num 0)).toFloat = some price)
    (hclear : Op.clearHistory ∉ ops)
    (hthr : ∀ a b, Op.setThresholds a b ∉ ops) :
    (∀ (tok2 : Option String) (side2 : String) (price2 size2 : ℚ),
      tok = tok2 → side = side2 → price = price2 → size = size2 →
      orderId tok side price size = orderId tok2 side2 price2 size2) ∧
    (processLevel side tok obTs' mi' now'
        (run (processLevel side tok obTs mi now s lvl) ops)
        lvl').big_trades_history =
      (run (processLevel side tok obTs mi now s lvl) ops).big_trades_history ∧
    (processLevel side tok obTs' mi' now'
        (run (processLevel side tok obTs mi now s lvl) ops)
        lvl').stats.big_trades_detected =
      (run (processLevel side tok obTs mi now s lvl)
        ops).stats.big_trades_detected ∧
    (processLevel side tok obTs' mi' now'
        (run (processLevel side tok obTs mi now s lvl) ops)
        lvl').stats.alerts_sent =
      (run (processLevel side tok obTs mi now s lvl) ops).stats.alerts_sent ∧
    (clear_history s).seen_trade_ids = [] ∧
    (clear_history s).big_trades_history = [] := by
  refine ⟨fun tok2 side2 price2 size2 h1 h2 h3 h4 => by
    rw [h1, h2, h3, h4], ?_, ?_, ?_, rfl, rfl⟩ <;>
  · have hth1 := processLevel_thresholds side tok obTs mi now s lvl
    have hth2 :=
      run_thresholds ops hthr (processLevel side tok obTs mi now s lvl)
    by_cases hbig : s.size_threshold ≤ size ∨ s.value_threshold ≤ size * price
    · have hmark := processLevel_marks side tok obTs mi now s lvl size price
        hs hp hbig
      have hmark2 := run_seen_subset ops hclear
        (processLevel side tok obTs mi now s lvl) hmark
      have hsup := processLevel_suppressed side tok obTs' mi' now' _ lvl'
        size price hs' hp' hmark2
      first
        | exact hsup.1
        | exact hsup.2.1
        | exact hsup.2.2
    · have hbig2 : ¬((run (processLevel side tok obTs mi now s lvl)
          ops).size_threshold ≤ size ∨
          (run (processLevel side tok obTs mi now s lvl)
            ops).value_threshold ≤ size * price) := by
        rw [hth2.1, hth2.2, hth1.1, hth1.2]
        exact hbig
      rw [processLevel_not_big side tok obTs' mi' now' _ lvl' size price hs'
        hp' hbig2]

/-- Claim C2, witness: processing the big bid, then (with no intermediate
operations) an observation identical in all four fields but with a
different timestamp and market metadata: no new record, detection, or
alert. -/
theorem observation_dedup_suppression_witness :
    (processLevel "BID" (some "T") (some "ts2")
        { miEmpty with outcome := some "Yes" } "n2"
        (run (processLevel "BID" (some "T") (some "ts") miEmpty "n1"
          sampleInit lvlBig) [])
        lvlBig).big_trades_history =
      (run (processLevel "BID" (some "T") (some "ts") miEmpty "n1"
        sampleInit lvlBig) []).big_trades_history ∧
    (processLevel "BID" (some "T") (some "ts2")
        { miEmpty with outcome := some "Yes" } "n2"
        (run (processLevel "BID" (some "T") (some "ts") miEmpty "n1"
          sampleInit lvlBig) [])
        lvlBig).stats.alerts_sent =
      (run (processLevel "BID" (some "T") (some "ts") miEmpty "n1"
        sampleInit lvlBig) []).stats.alerts_sent := by
  have h := observation_dedup_suppression "BID" (some "T") (some "ts")
    (some "ts2") miEmpty { miEmpty with outcome := some "Yes" } "n1" "n2"
    sampleInit [] lvlBig lvlBig 600 (1/2) rfl rfl rfl rfl (by simp)
    (by simp)
  exact ⟨h.2.1, h.2.2.2.1⟩

/-- Claim C3: `_send_alerts` invokes every registered consumer, in
registration order, each with the dispatched record (the trace equals the
map of the callback list over the record, so a raising consumer never
prevents later ones); `alerts_sent` grows by exactly the number of
successful invocations and by nothing for failing ones; nothing else in the
state changes. -/
theorem alert_dispatch_isolation (cbs : List (BigOrder → Except String Unit))
    (bt : BigOrder) (acc : ℕ) (s : MonitorState) :
    (sendAlertsRun cbs bt acc).2 = cbs.map (fun cb => cb bt) ∧
    (sendAlertsRun cbs bt acc).1 =
      acc + (cbs.map (fun cb => cb bt)).countP exceptOk ∧
    send_alerts bt s = { s with stats := { s.stats with
        alerts_sent := s.stats.alerts_sent +
          (s.alert_callbacks.map (fun cb => cb bt)).countP exceptOk } } :=
  ⟨(sendAlertsRun_trace cbs bt acc).1, (sendAlertsRun_trace cbs bt acc).2,
   by
    unfold send_alerts
    rw [(sendAlertsRun_trace s.alert_callbacks bt s.stats.alerts_sent).2]⟩

/-- Claim C4: `_is_big_trade` returns `true` on convertible inputs exactly
when `size ≥ size_threshold` or `size*price ≥ value_threshold`, and returns
`false` (rather than raising) when either field fails `float()` conversion.
It is a plain function of its arguments — the embedding gives it no access
to state, matching the source, which only reads `self` thresholds. -/
theorem is_big_trade_spec (trade : Trade) (st vt : ℚ) :
    (∀ size price, (trade.size.getD (Val.num 0)).toFloat = some size →
      (trade.price.getD (Val.num 0)).toFloat = some price →
      (is_big_trade trade st vt = true ↔ st ≤ size ∨ vt ≤ size * price)) ∧
    ((trade.size.getD (Val.num 0)).toFloat = none ∨
        (trade.price.getD (Val.num 0)).toFloat = none →
      is_big_trade trade st vt = false) := by
  refine ⟨fun size price hs hp => is_big_trade_parsed trade st vt size price
    hs hp, fun h => ?_⟩
  unfold is_big_trade
  rcases h with h | h
  · rw [h]
  · rw [h]
    rcases (trade.size.getD (Val.num 0)).toFloat with _ | q <;> rfl

/-- Claim C4, witness: a big trade, a non-big trade, and a malformed one. -/
theorem is_big_trade_spec_witness :
    is_big_trade { size := some (Val.num 600), price := some (Val.num (1/2)) }
      500 100 = true ∧
    is_big_trade { size := some (Val.num 50), price := some (Val.num (1/10)) }
      500 100 = false ∧
    is_big_trade { size := some (Val.str "oops"), price := some (Val.num 1) }
      500 100 = false :=
  ⟨((is_big_trade_spec
      { size := some (Val.num 600), price := some (Val.num (1/2)) }
      500 100).1 600 (1/2) rfl rfl).mpr (Or.inl (by norm_num)),
   by
    have h := (is_big_trade_spec
      { size := some (Val.num 50), price := some (Val.num (1/10)) }
      500 100).1 50 (1/10) rfl rfl
    rcases hb : is_big_trade
      { size := some (Val.num 50), price := some (Val.num (1/10)) }
      500 100 with _ | _
    · rfl
    · rcases h.mp hb with hc | hc <;> norm_num at hc,
   (is_big_trade_spec
      { size := some (Val.str "oops"), price := some (Val.num 1) }
      500 100).2 (Or.inl rfl)⟩

/-- Claim C5: in every reachable monitor state — any operation sequence from
a fresh monitor, covering poll-cycle processing steps, lifecycle calls,
configuration calls and `clear_history` — every record in the big-trade
History Ring has its ObservationID in the Dedup Store. (The converse is
explicitly not claimed: eviction at capacity removes records but not ids.) -/
theorem history_ids_in_dedup_store (poll st vt : ℚ) (ops : List Op)
    (bt : BigOrder)
    (hbt : bt ∈ (run (initState poll st vt) ops).big_trades_history) :
    orderId bt.token_id bt.side bt.price bt.size ∈
      (run (initState poll st vt) ops).seen_trade_ids :=
  obsInv_run ops (initState poll st vt)
    (fun b hb => absurd hb (List.not_mem_nil b)) bt hbt

/-- Claim C5, witness: after one poll over the big bid, the produced
record's id is in the Dedup Store. -/
theorem history_ids_in_dedup_store_witness :
    orderId (some "T") "BID" ((1 : ℚ)/2) 600 ∈
      (run (initState 3 500 100)
        [Op.pollOrderbook obBig miEmpty "now"]).seen_trade_ids := by
  have hmem : sampleBigRecord ∈
      (run (initState 3 500 100)
        [Op.pollOrderbook obBig miEmpty "now"]).big_trades_history := by
    have e : run (initState 3 500 100) [Op.pollOrderbook obBig miEmpty "now"]
        = processLevel "BID" (some "T") (some "ts") miEmpty "now"
          (initState 3 500 100) lvlBig := rfl
    rw [e, processLevel_big_new "BID" (some "T") (some "ts") miEmpty "now"
      (initState 3 500 100) lvlBig 600 (1/2) rfl rfl
      (Or.inl (by show (500 : ℚ) ≤ 600; norm_num))
      (by show orderId (some "T") "BID" (1/2) 600 ∉ ([] : List String)
          exact List.not_mem_nil _)]
    show sampleBigRecord ∈ [sampleBigRecord]
    exact List.mem_singleton_self _
  exact history_ids_in_dedup_store 3 500 100
    [Op.pollOrderbook obBig miEmpty "now"] sampleBigRecord hmem

/-- Claim C6: the three History Rings carry the stated capacities (10000
big trades, 1000 orderbook snapshots, 1000 spreads); a push keeps the
length within capacity (evicting the oldest at capacity); and after
capacity + 1 pushes into an empty ring the retained content is exactly the
pushed sequence minus its first element — so the first-pushed item is
absent, the newest-pushed item is present, and insertion order (oldest
first) is preserved. -/
theorem history_ring_bounded_fifo {α : Type} (c : ℕ) (hc : 0 < c) :
    (BIG_TRADES_CAP = 10000 ∧ ORDERBOOK_HISTORY_CAP = 1000 ∧
      SPREAD_HISTORY_CAP = 1000) ∧
    (∀ (xs : List α) (x : α), xs.length ≤ c →
      (dequePush c xs x).length ≤ c) ∧
    (∀ (a b : α) (t : List α), (a :: (t ++ [b])).length = c + 1 →
      a ∉ t ++ [b] →
      List.foldl (dequePush c) [] (a :: (t ++ [b])) = t ++ [b] ∧
      a ∉ List.foldl (dequePush c) [] (a :: (t ++ [b])) ∧
      b ∈ List.foldl (dequePush c) [] (a :: (t ++ [b]))) := by
  refine ⟨⟨rfl, rfl, rfl⟩, fun xs x h => dequePush_length hc xs x h, ?_⟩
  intro a b t hlen hnotin
  have hfold : List.foldl (dequePush c) [] (a :: (t ++ [b])) = t ++ [b] := by
    rw [dequeFold_eq hc (a :: (t ++ [b])) [] (by simp)]
    have h1 : ([] : List α).length + (a :: (t ++ [b])).length - c = 1 := by
      simp only [List.length_nil, Nat.zero_add, hlen]
      omega
    rw [h1]
    simp
  exact ⟨hfold, by rw [hfold]; exact hnotin, by rw [hfold]; simp⟩

/-- Claim C6, witness: with the big-trade capacity 10000, pushing 10001
distinct items keeps the last 10000 in order; the first is gone, the last
is present. -/
theorem history_ring_bounded_fifo_witness :
    (dequePush BIG_TRADES_CAP (List.replicate 9999 (1 : ℕ) ++ [2]) 3).length
      ≤ BIG_TRADES_CAP ∧
    List.foldl (dequePush BIG_TRADES_CAP) []
        ((0 : ℕ) :: (List.replicate 9999 1 ++ [2])) =
      List.replicate 9999 1 ++ [2] ∧
    (0 : ℕ) ∉ List.foldl (dequePush BIG_TRADES_CAP) []
        ((0 : ℕ) :: (List.replicate 9999 1 ++ [2])) ∧
    (2 : ℕ) ∈ List.foldl (dequePush BIG_TRADES_CAP) []
        ((0 : ℕ) :: (List.replicate 9999 1 ++ [2])) := by
  have h := history_ring_bounded_fifo (α := ℕ) BIG_TRADES_CAP
    (by norm_num [BIG_TRADES_CAP])
  refine ⟨h.2.1 (List.replicate 9999 1 ++ [2]) 3 ?_, ?_⟩
  · rw [List.length_append, List.length_replicate, List.length_singleton]
    norm_num [BIG_TRADES_CAP]
  · have h3 := h.2.2 0 2 (List.replicate 9999 1)
      (by
        rw [List.length_cons, List.length_append, List.length_replicate,
          List.length_singleton]
        norm_num [BIG_TRADES_CAP])
      (by
        intro hmem
        rcases List.mem_append.mp hmem with hm | hm
        · exact absurd (List.mem_replicate.mp hm).2 (by norm_num)
        · exact absurd (List.mem_singleton.mp hm) (by norm_num))
    exact ⟨h3.1, h3.2.1, h3.2.2⟩

/-- Claim C7, counterexample. The claim says an empty tracked set after
discovery is surfaced as a raised error from `start()`. The source's
`start` prints a notice and returns normally (outcome `noMarkets`, state
still stopped), whereas `specStart` (modelled from the spec's raised-error
wording) returns an error value at the same input. -/
theorem start_raises_counterexample :
    specStart true [] 0 sampleInit = Except.error "No markets to monitor" ∧
    (start true [] 0 sampleInit).2 = StartOutcome.noMarkets ∧
    (start true [] 0 sampleInit).1.is_running = false :=
  ⟨rfl, rfl, rfl⟩

/-- Claim C7 (amended): `start()` while running is a pure no-op apart from
the already-running notice; `start()` while stopped with no tracked markets
and (when enabled) empty discovery aborts without transitioning to running
— `is_running` stays false and `start_time` is untouched — reporting the
configuration error through a printed notice and a normal return, not a
raised error. -/
theorem start_lifecycle_behavior (ad : Bool) (disc : List MarketInfo)
    (now : ℚ) (s : MonitorState) :
    (s.is_running = true → start ad disc now s = (s, StartOutcome.alreadyRunning)) ∧
    (s.is_running = false → s.tracked_markets = [] → (ad = true → disc = []) →
      (start ad disc now s).2 = StartOutcome.noMarkets ∧
      (start ad disc now s).1.is_running = false ∧
      (start ad disc now s).1.stats.start_time = s.stats.start_time) := by
  constructor
  · intro h
    unfold start
    rw [if_pos h]
  · intro hrun htr hd
    rcases had : ad with _ | _
    · simp [start, hrun, htr, had]
    · have hdisc := hd had
      subst hdisc
      simp [start, hrun, htr, had, set_tracked_markets]

/-- Claim C7, witness: both arms at concrete states. -/
theorem start_lifecycle_behavior_witness :
    start false [] 0 { sampleInit with is_running := true } =
      ({ sampleInit with is_running := true }, StartOutcome.alreadyRunning) ∧
    (start true [] 0 sampleInit).2 = StartOutcome.noMarkets ∧
    (start true [] 0 sampleInit).1.is_running = false ∧
    (start true [] 0 sampleInit).1.stats.start_time = none := by
  have h2 := (start_lifecycle_behavior true [] 0 sampleInit).2 rfl rfl
    (fun _ => rfl)
  exact ⟨(start_lifecycle_behavior false [] 0
      { sampleInit with is_running := true }).1 rfl, h2.1, h2.2.1, h2.2.2⟩

/-- Claim C8, counterexample. The claim says `clear_history()` resets
`markets_monitored` to zero. After tracking three markets, the source's
`clear_history` leaves `markets_monitored` at 3. -/
theorem clear_history_markets_monitored_counterexample :
    (clear_history (set_tracked_markets [miEmpty, miEmpty, miEmpty]
        sampleInit)).stats.markets_monitored = 3 ∧
    (clear_history (set_tracked_markets [miEmpty, miEmpty, miEmpty]
        sampleInit)).stats.markets_monitored ≠ 0 :=
  ⟨rfl, by decide⟩

/-- Claim C8 (amended): `clear_history()` empties the Dedup Store and the
big-trade History Ring and zeroes `total_trades_checked`,
`big_trades_detected` and `alerts_sent`, while leaving `markets_monitored`,
the thresholds, the tracked-market set and `start_time` unchanged. (The
claim's atomicity-under-concurrency aspect has no content in this
sequential embedding; the source takes no lock.) -/
theorem clear_history_effects (s : MonitorState) :
    clear_history s =
      { s with
          big_trades_history := []
          seen_trade_ids := []
          stats := { s.stats with
              total_trades_checked := 0
              big_trades_detected := 0
              alerts_sent := 0 } } ∧
    (clear_history s).stats.markets_monitored = s.stats.markets_monitored ∧
    (clear_history s).size_threshold = s.size_threshold ∧
    (clear_history s).value_threshold = s.value_threshold ∧
    (clear_history s).tracked_markets = s.tracked_markets ∧
    (clear_history s).stats.start_time = s.stats.start_time :=
  ⟨rfl, rfl, rfl, rfl, rfl, rfl⟩

/-- Claim C9: for fixed thresholds and non-negative numeric inputs,
`_is_big_trade` is monotone: growing size and price never turns a big
verdict non-big. -/
theorem is_big_trade_monotone (size price size' price' st vt : ℚ)
    (h0s : 0 ≤ size) (h0p : 0 ≤ price) (hs : size ≤ size')
    (hp : price ≤ price')
    (h : is_big_trade
      { size := some (Val.num size), price := some (Val.num price) }
      st vt = true) :
    is_big_trade
      { size := some (Val.num size'), price := some (Val.num price') }
      st vt = true := by
  have h1 := (is_big_trade_parsed
    { size := some (Val.num size), price := some (Val.num price) }
    st vt size price rfl rfl).mp h
  refine (is_big_trade_parsed
    { size := some (Val.num size'), price := some (Val.num price') }
    st vt size' price' rfl rfl).mpr ?_
  rcases h1 with h1 | h1
  · exact Or.inl (le_trans h1 hs)
  · exact Or.inr (le_trans h1 (mul_le_mul hs hp h0p (le_trans h0s hs)))

/-- Claim C9, witness: `(600, 0.5)` is big at thresholds `(500, 100)`, so
the larger `(700, 1)` is big too. -/
theorem is_big_trade_monotone_witness :
    is_big_trade
      { size := some (Val.num 700), price := some (Val.num 1) }
      500 100 = true :=
  is_big_trade_monotone 600 (1/2) 700 1 500 100 (by norm_num) (by norm_num)
    (by norm_num) (by norm_num)
    ((is_big_trade_parsed
      { size := some (Val.num 600), price := some (Val.num (1/2)) }
      500 100 600 (1/2) rfl rfl).mpr (Or.inl (by norm_num)))

/-- Claim C10: `get_stats` returns a copy of the stats dict (`.copy()` in
the source, so mutating the returned dict cannot touch the monitor — in
this pure embedding the snapshot is a value); the call itself is not a pure
read: when `start_time` is set it writes `uptime_seconds` and
`uptime_minutes` into the internal stats dict, and it changes nothing else;
when `start_time` is unset it changes nothing at all. -/
theorem get_stats_effects (now : ℚ) (s : MonitorState) :
    (∀ t, s.stats.start_time = some t →
      (get_stats now s).1 = { s with stats := { s.stats with
          uptime_seconds := some (now - t)
          uptime_minutes := some ((now - t) / 60) } } ∧
      (get_stats now s).2 = ((get_stats now s).1).stats) ∧
    (s.stats.start_time = none →
      (get_stats now s).1 = s ∧ (get_stats now s).2 = s.stats) := by
  constructor
  · intro t ht
    unfold get_stats
    rw [ht]
    exact ⟨rfl, rfl⟩
  · intro ht
    unfold get_stats
    rw [ht]
    exact ⟨rfl, rfl⟩

/-- Claim C10, witness: with `start_time = 4` at `now = 10` the uptime
fields are written and nothing else moves; with `start_time` unset the
state is untouched. -/
theorem get_stats_effects_witness :
    (get_stats 10 { sampleInit with stats :=
        { sampleInit.stats with start_time := some 4 } }).1 =
      { sampleInit with stats := { sampleInit.stats with
          start_time := some 4
          uptime_seconds := some (10 - 4 : ℚ)
          uptime_minutes := some ((10 - 4 : ℚ) / 60) } } ∧
    (get_stats 10 sampleInit).1 = sampleInit :=
  ⟨((get_stats_effects 10 { sampleInit with stats :=
      { sampleInit.stats with start_time := some 4 } }).1 4 rfl).1,
   ((get_stats_effects 10 sampleInit).2 rfl).1⟩

end Polymarket
